import Mathlib

/-!
Verification of the aggregation/caching helper of the volunteer-opportunity
platform (`api-config.js`).  The JavaScript source is shallowly embedded:
pure functions become Lean functions, the in-memory response cache becomes
explicit state passing over an association list, the network is an oracle
parameter (`none` models any transport / HTTP-status / JSON-parse failure,
`some payload` a successful parsed response), and `Date.now()` becomes an
explicit `now : Nat` argument (milliseconds).  All functions are total, so
the "never raises to the caller" contracts are visible in the types; points
where the JavaScript can throw internally (inside a `try`) are modelled with
`Except`.
-/

namespace ApiConfig

/-! ## Data model (spec section 3, `api-config.js` records) -/

/-- An opportunity record.  Field set is the union of the fields produced by
`getFallbackData` and `VolunteerScraper.scrapeSite`; `title` and
`organization` are the only fields the aggregator itself reads. -/
structure Opportunity where
  id : Option String := none
  title : String
  organization : String
  category : Option String := none
  description : Option String := none
  date : Option String := none
  time : Option String := none
  location : Option String := none
  skills : Option String := none
  contact : Option String := none
  link : Option String := none
deriving DecidableEq

/-- A per-source result payload.  `opportunities := none` models a JSON body
without a (truthy) `opportunities` field, which `combineResults` skips. -/
structure APIResult where
  opportunities : Option (List Opportunity)
deriving DecidableEq

/-- The `opportunities` array of a result, empty when absent. -/
def opps (r : APIResult) : List Opportunity := r.opportunities.getD []

/-! ## `combineResults` (api-config.js lines 264-281) -/

/-- The composite deduplication key `` `${opp.title}-${opp.organization}` ``. -/
def dedupKey (o : Opportunity) : String := o.title ++ "-" ++ o.organization

/-- One iteration of the inner `forEach` of `combineResults`: the accumulator
is the pair (`combined`, `seen`); `combined.push(opp)` appends, `seen` is the
set of already-seen keys (represented as a list). -/
def combineStep (acc : List Opportunity × List String) (opp : Opportunity) :
    List Opportunity × List String :=
  if dedupKey opp ∈ acc.2 then acc else (acc.1 ++ [opp], dedupKey opp :: acc.2)

/-- One iteration of the outer `forEach` of `combineResults`: results whose
`opportunities` field is absent (falsy) are skipped. -/
def combineFold (acc : List Opportunity × List String) (result : APIResult) :
    List Opportunity × List String :=
  match result.opportunities with
  | some os => os.foldl combineStep acc
  | none => acc

/-- `VolunteerAPI.combineResults`: flatten all `opportunities` arrays in
input order and keep the first occurrence of each composite key. -/
def combineResults (apiResults : List APIResult) : APIResult :=
  ⟨some (apiResults.foldl combineFold ([], ([] : List String))).1⟩

/-- The flattened sequence of opportunities, in source order then
within-source order. -/
def flattenOpps (rs : List APIResult) : List Opportunity :=
  rs.foldr (fun r acc => opps r ++ acc) []

/-- Recursive presentation of the first-occurrence-wins filtering performed
by `combineResults`, parametrised by the set of keys already seen. -/
def combineAux : List Opportunity → List String → List Opportunity
  | [], _ => []
  | o :: rest, seen =>
    if dedupKey o ∈ seen then combineAux rest seen
    else o :: combineAux rest (dedupKey o :: seen)

/-- Evolution of the `seen` key set over a list of opportunities. -/
def seenAux : List Opportunity → List String → List String
  | [], seen => seen
  | o :: rest, seen =>
    if dedupKey o ∈ seen then seenAux rest seen
    else seenAux rest (dedupKey o :: seen)

theorem foldl_combineStep (l : List Opportunity) :
    ∀ (acc : List Opportunity) (seen : List String),
    l.foldl combineStep (acc, seen) = (acc ++ combineAux l seen, seenAux l seen) := by
  induction l with
  | nil => intro acc seen; simp [combineAux, seenAux]
  | cons o rest ih =>
    intro acc seen
    by_cases h : dedupKey o ∈ seen
    · simp [combineStep, combineAux, seenAux, h, ih]
    · simp [combineStep, combineAux, seenAux, h, ih]

theorem combineAux_append (l₁ l₂ : List Opportunity) :
    ∀ seen, combineAux (l₁ ++ l₂) seen
      = combineAux l₁ seen ++ combineAux l₂ (seenAux l₁ seen) := by
  induction l₁ with
  | nil => intro seen; simp [combineAux, seenAux]
  | cons o rest ih =>
    intro seen
    by_cases h : dedupKey o ∈ seen
    · simp [combineAux, seenAux, h, ih]
    · simp [combineAux, seenAux, h, ih]

theorem seenAux_append (l₁ l₂ : List Opportunity) :
    ∀ seen, seenAux (l₁ ++ l₂) seen = seenAux l₂ (seenAux l₁ seen) := by
  induction l₁ with
  | nil => intro seen; simp [seenAux]
  | cons o rest ih =>
    intro seen
    by_cases h : dedupKey o ∈ seen
    · simp [seenAux, h, ih]
    · simp [seenAux, h, ih]

theorem combineFold_eq (acc : List Opportunity × List String) (result : APIResult) :
    combineFold acc result = (opps result).foldl combineStep acc := by
  cases result with
  | mk o => cases o <;> simp [combineFold, opps]

theorem nested_foldl_combineStep (rs : List APIResult) :
    ∀ (acc : List Opportunity) (seen : List String),
    rs.foldl combineFold (acc, seen)
    = (acc ++ combineAux (flattenOpps rs) seen, seenAux (flattenOpps rs) seen) := by
  induction rs with
  | nil => intro acc seen; simp [flattenOpps, combineAux, seenAux]
  | cons r rest ih =>
    intro acc seen
    have hflat : flattenOpps (r :: rest) = opps r ++ flattenOpps rest := rfl
    rw [List.foldl, combineFold_eq, foldl_combineStep, ih, hflat]
    rw [combineAux_append, seenAux_append]
    simp [List.append_assoc]

theorem combineResults_eq (rs : List APIResult) :
    combineResults rs = ⟨some (combineAux (flattenOpps rs) [])⟩ := by
  simp [combineResults, nested_foldl_combineStep]

theorem combineAux_sublist (l : List Opportunity) :
    ∀ seen, (combineAux l seen).Sublist l := by
  induction l with
  | nil => intro seen; simp [combineAux]
  | cons o rest ih =>
    intro seen
    by_cases h : dedupKey o ∈ seen
    · simp only [combineAux, if_pos h]
      exact (ih seen).cons o
    · simp only [combineAux, if_neg h]
      exact (ih (dedupKey o :: seen)).cons₂ o

theorem mem_combineAux_not_seen {o : Opportunity} :
    ∀ {l : List Opportunity} {seen : List String},
    o ∈ combineAux l seen → dedupKey o ∉ seen := by
  intro l
  induction l with
  | nil => intro seen h; simp [combineAux] at h
  | cons a rest ih =>
    intro seen h
    by_cases ha : dedupKey a ∈ seen
    · simp only [combineAux, if_pos ha] at h
      exact ih h
    · simp only [combineAux, if_neg ha] at h
      rcases List.mem_cons.mp h with h | h
      · subst h; exact ha
      · have := ih h
        intro hmem
        exact this (List.mem_cons_of_mem _ hmem)

theorem nodup_keys_combineAux (l : List Opportunity) :
    ∀ seen, ((combineAux l seen).map dedupKey).Nodup := by
  induction l with
  | nil => intro seen; simp [combineAux]
  | cons a rest ih =>
    intro seen
    by_cases ha : dedupKey a ∈ seen
    · simp only [combineAux, if_pos ha]
      exact ih seen
    · simp only [combineAux, if_neg ha, List.map_cons, List.nodup_cons]
      refine ⟨?_, ih (dedupKey a :: seen)⟩
      intro hmem
      rcases List.mem_map.mp hmem with ⟨o, ho, hkey⟩
      have := mem_combineAux_not_seen ho
      exact this (hkey ▸ List.mem_cons_self _ _)

theorem find?_combineAux (k : String) :
    ∀ (l : List Opportunity) (seen : List String), k ∉ seen →
    (combineAux l seen).find? (fun x => dedupKey x == k)
      = l.find? (fun x => dedupKey x == k) := by
  intro l
  induction l with
  | nil => intro seen _; simp [combineAux]
  | cons a rest ih =>
    intro seen hk
    by_cases ha : dedupKey a ∈ seen
    · have hak : dedupKey a ≠ k := fun h => hk (h ▸ ha)
      have hne : ¬((fun x => dedupKey x == k) a = true) := by simp [hak]
      simp only [combineAux, if_pos ha]
      rw [ih seen hk, @List.find?_cons_of_neg _ (fun x => dedupKey x == k) a rest hne]
    · simp only [combineAux, if_neg ha]
      by_cases heq : dedupKey a = k
      · have hb : ((fun x => dedupKey x == k) a = true) := by simp [heq]
        rw [@List.find?_cons_of_pos _ (fun x => dedupKey x == k) a
              (combineAux rest (dedupKey a :: seen)) hb,
            @List.find?_cons_of_pos _ (fun x => dedupKey x == k) a rest hb]
      · have hne : ¬((fun x => dedupKey x == k) a = true) := by simp [heq]
        rw [@List.find?_cons_of_neg _ (fun x => dedupKey x == k) a
              (combineAux rest (dedupKey a :: seen)) hne,
            @List.find?_cons_of_neg _ (fun x => dedupKey x == k) a rest hne]
        refine ih (dedupKey a :: seen) ?_
        intro hmem
        rcases List.mem_cons.mp hmem with h | h
        · exact heq h.symm
        · exact hk h

theorem combineAux_of_nodup :
    ∀ (l : List Opportunity) (seen : List String),
    (l.map dedupKey).Nodup → (∀ o ∈ l, dedupKey o ∉ seen) → combineAux l seen = l := by
  intro l
  induction l with
  | nil => intro seen _ _; rfl
  | cons a rest ih =>
    intro seen hnd hdisj
    have ha : dedupKey a ∉ seen := hdisj a (List.mem_cons_self _ _)
    simp only [combineAux, if_neg ha]
    rw [List.map_cons, List.nodup_cons] at hnd
    congr 1
    refine ih (dedupKey a :: seen) hnd.2 ?_
    intro o ho
    intro hmem
    rcases List.mem_cons.mp hmem with h | h
    · exact hnd.1 (h ▸ List.mem_map_of_mem dedupKey ho)
    · exact hdisj o (List.mem_cons_of_mem _ ho) h

/-! ## Claims C1 and C7: `combineResults` -/

/-- **C1.** For every input list of source results, `combineResults`
deduplicates the flattened opportunities by the composite key
`title + "-" + organization`: the output is a subsequence of the flattened
input, its composite keys are pairwise distinct (so of any group of
opportunities sharing a `(title, organization)` pair — which always share a
key — at most one survives), and for every key the surviving element is the
first element of the flattened input carrying that key, whatever its other
fields. -/
theorem combineResults_dedup_by_key (rs : List APIResult) :
    (opps (combineResults rs)).Sublist (flattenOpps rs) ∧
    ((opps (combineResults rs)).map dedupKey).Nodup ∧
    (∀ k : String,
      (opps (combineResults rs)).find? (fun x => dedupKey x == k)
        = (flattenOpps rs).find? (fun x => dedupKey x == k)) ∧
    (∀ o₁ o₂ : Opportunity, o₁.title = o₂.title → o₁.organization = o₂.organization →
      dedupKey o₁ = dedupKey o₂) := by
  have h : opps (combineResults rs) = combineAux (flattenOpps rs) [] := by
    rw [combineResults_eq]; rfl
  refine ⟨?_, ?_, ?_, ?_⟩
  · rw [h]; exact combineAux_sublist _ _
  · rw [h]; exact nodup_keys_combineAux _ _
  · intro k
    rw [h]
    exact find?_combineAux k (flattenOpps rs) [] (List.not_mem_nil k)
  · intro o₁ o₂ ht ho
    simp [dedupKey, ht, ho]

/-- Two input opportunities sharing `(title, organization)` but differing in
`description`, arriving from two different sources. -/
def oppDup1 : Opportunity := { title := "Tutoring", organization := "Org", description := some "morning" }

def oppDup2 : Opportunity := { title := "Tutoring", organization := "Org", description := some "evening" }

def demoResults : List APIResult := [⟨some [oppDup1]⟩, ⟨some [oppDup2]⟩]

theorem combineResults_dedup_by_key_witness :
    dedupKey oppDup1 = dedupKey oppDup2 ∧
    (opps (combineResults demoResults)).find? (fun x => dedupKey x == dedupKey oppDup2)
      = (flattenOpps demoResults).find? (fun x => dedupKey x == dedupKey oppDup2) :=
  ⟨(combineResults_dedup_by_key demoResults).2.2.2 oppDup1 oppDup2 rfl rfl,
   (combineResults_dedup_by_key demoResults).2.2.1 (dedupKey oppDup2)⟩

/-- **C7.** `combineResults` flattens the `opportunities` arrays into one
ordered sequence — sources in input order, opportunities in within-source
order (`flattenOpps rs = (rs.map opps).join`) — and its output preserves
that order (it is a subsequence of the flattened sequence, equal to it when
no composite key repeats).  The embedding is a pure function: input result
objects and their arrays are values, never mutated, and the output list is
freshly constructed. -/
theorem flattenOpps_eq_flatten (rs : List APIResult) :
    flattenOpps rs = (rs.map opps).flatten := by
  induction rs with
  | nil => rfl
  | cons r rest ih => simp [flattenOpps] at ih ⊢; rw [ih]

theorem combineResults_flatten_order (rs : List APIResult) :
    (opps (combineResults rs)).Sublist (flattenOpps rs) ∧
    flattenOpps rs = (rs.map opps).flatten ∧
    (((flattenOpps rs).map dedupKey).Nodup → opps (combineResults rs) = flattenOpps rs) := by
  have h : opps (combineResults rs) = combineAux (flattenOpps rs) [] := by
    rw [combineResults_eq]; rfl
  refine ⟨?_, flattenOpps_eq_flatten rs, ?_⟩
  · rw [h]; exact combineAux_sublist _ _
  · intro hnd
    rw [h]
    exact combineAux_of_nodup _ [] hnd (fun o _ => List.not_mem_nil _)

def oppOther : Opportunity := { title := "Cleanup", organization := "Env" }

def demoDistinct : List APIResult := [⟨some [oppDup1]⟩, ⟨some [oppOther]⟩, ⟨none⟩]

theorem combineResults_flatten_order_witness :
    opps (combineResults demoDistinct) = flattenOpps demoDistinct :=
  (combineResults_flatten_order demoDistinct).2.2 (by decide)

/-! ## JavaScript values and `JSON.stringify`

`makeAPICall`'s cache key is `url + JSON.stringify(options)`.  `JSVal` is
the space of JavaScript values that can appear as `options` (and as parsed
JSON payloads); numbers are modelled as integers (no claim depends on
non-integral numbers).  `jsonStringify` follows ECMA-262 `JSON.stringify`:
`undefined`-valued object properties are omitted, `undefined` array elements
serialize as `null`, strings are quoted with `"` and `\` (and common control
characters) escaped.  A top-level `undefined` is rendered as the string
`"undefined"`, matching the coercion in the concatenation
`url + JSON.stringify(options)`. -/

inductive JSVal where
  | undef
  | null
  | bool (b : Bool)
  | num (n : Int)
  | str (s : String)
  | arr (elems : List JSVal)
  | obj (fields : List (String × JSVal))

/-- Escape one character as inside a JSON string literal. -/
def jsonEscapeChar (c : Char) : String :=
  if c = '"' then "\\\""
  else if c = '\\' then "\\\\"
  else if c = '\n' then "\\n"
  else if c = '\t' then "\\t"
  else if c = '\r' then "\\r"
  else String.singleton c

/-- A JSON string literal: quoted, escaped. -/
def jsonQuote (s : String) : String :=
  "\"" ++ String.join (s.data.map jsonEscapeChar) ++ "\""

mutual

def jsonStringify : JSVal → String
  | .undef => "undefined"
  | .null => "null"
  | .bool true => "true"
  | .bool false => "false"
  | .num n => toString n
  | .str s => jsonQuote s
  | .arr es => "[" ++ jsonArrBody es ++ "]"
  | .obj fs => "\x7b" ++ jsonObjBody fs ++ "\x7d"

def jsonArrBody : List JSVal → String
  | [] => ""
  | [JSVal.undef] => "null"
  | [v] => jsonStringify v
  | JSVal.undef :: rest => "null" ++ "," ++ jsonArrBody rest
  | v :: rest => jsonStringify v ++ "," ++ jsonArrBody rest

def jsonObjBody : List (String × JSVal) → String
  | [] => ""
  | (_, JSVal.undef) :: rest => jsonObjBody rest
  | (k, v) :: rest =>
    let entry := jsonQuote k ++ ":" ++ jsonStringify v
    let restStr := jsonObjBody rest
    if restStr = "" then entry else entry ++ "," ++ restStr

end

/-! ## The response cache and `makeAPICall` (api-config.js lines 57-102)

`this.cache` is a JavaScript `Map`; it is modelled as an association list in
insertion order: `Map.get` returns the entry stored under an exactly equal
key, `Map.set` overwrites in place or appends.  The payload type is a
parameter `α`: the generic helper caches whatever JSON the call parses. -/

/-- Cache state of a `VolunteerAPI` instance: the `Map` contents
(key, payload, storedAt-timestamp) and `cacheTimeout`. -/
structure APIState (α : Type) where
  cache : List (String × α × Nat)
  cacheTimeout : Nat
deriving DecidableEq

/-- The constructor state: empty cache, `cacheTimeout = 10 * 60 * 1000`. -/
def freshState (α : Type) : APIState α := ⟨[], 10 * 60 * 1000⟩

/-- `Map.get`: first (unique) entry under an equal key. -/
def lookupCache {α : Type} : List (String × α × Nat) → String → Option (α × Nat)
  | [], _ => none
  | (k, v) :: rest, key => if k = key then some v else lookupCache rest key

/-- `Map.set`: overwrite in place, else append. -/
def setCache {α : Type} : List (String × α × Nat) → String → α × Nat → List (String × α × Nat)
  | [], key, v => [(key, v)]
  | (k, w) :: rest, key, v =>
    if k = key then (key, v) :: rest else (k, w) :: setCache rest key v

/-- The cache key `url + JSON.stringify(options)`. -/
def cacheKey (url : String) (options : JSVal) : String :=
  url ++ jsonStringify options

/-- The cache-hit test of `makeAPICall`: `cache.has(key)`, then
`Date.now() - cached.timestamp < this.cacheTimeout` (an expired entry is
ignored but not removed). -/
def cacheLookupLive {α : Type} (st : APIState α) (key : String) (now : Nat) : Option α :=
  match lookupCache st.cache key with
  | some (data, ts) => if now - ts < st.cacheTimeout then some data else none
  | none => none

/-- `VolunteerAPI.makeAPICall`.  `net` is the network oracle: `some data`
models a 2xx response whose body parses as `data`; `none` models any
failure (network rejection, non-2xx status, or JSON parse error), which the
source rethrows after logging.  The returned `Bool` records whether an
underlying `fetch` was performed. -/
def makeAPICall {α : Type} (st : APIState α) (url : String) (options : JSVal)
    (net : Option α) (now : Nat) : Except Unit α × APIState α × Bool :=
  match cacheLookupLive st (cacheKey url options) now with
  | some data => (Except.ok data, st, false)
  | none =>
    match net with
    | some data =>
      (Except.ok data, ⟨setCache st.cache (cacheKey url options) (data, now), st.cacheTimeout⟩, true)
    | none => (Except.error (), st, true)

theorem lookupCache_setCache_self {α : Type} (c : List (String × α × Nat)) (k : String) (v : α × Nat) :
    lookupCache (setCache c k v) k = some v := by
  induction c with
  | nil => simp [setCache, lookupCache]
  | cons e rest ih =>
    by_cases h : e.1 = k
    · simp [setCache, lookupCache, h]
    · simp [setCache, lookupCache, h, ih]

theorem lookupCache_setCache_ne {α : Type} (c : List (String × α × Nat))
    (k₁ k₂ : String) (v : α × Nat) (h : k₁ ≠ k₂) :
    lookupCache (setCache c k₁ v) k₂ = lookupCache c k₂ := by
  induction c with
  | nil => simp [setCache, lookupCache, h]
  | cons e rest ih =>
    by_cases he : e.1 = k₁
    · simp [setCache, lookupCache, he, h]
    · simp [setCache, lookupCache, he, ih]

/-! ## Claim C2: the caching policy of `makeAPICall` -/

/-- **C2.** Starting from a state with no live entry for the request's key:
the first call performs the (successful) network call, returns its payload
and caches it under the key with the current timestamp; a second call within
10 minutes (`t₂ - t₁ < cacheTimeout`) returns the cached payload, performs
no network call whatever the network would do, and leaves the state
unchanged; a further call once the timeout has elapsed
(`cacheTimeout ≤ t₃ - t₁`) performs a second network call whose successful
result overwrites the prior entry; and a failing call caches nothing (the
state is returned unchanged). -/
theorem makeAPICall_cache_policy {α : Type} (st₀ : APIState α) (url : String)
    (opts : JSVal) (d d' : α) (net₂ : Option α) (t₁ t₂ t₃ : Nat)
    (hmiss : cacheLookupLive st₀ (cacheKey url opts) t₁ = none)
    (hfresh : t₂ - t₁ < st₀.cacheTimeout)
    (hstale : st₀.cacheTimeout ≤ t₃ - t₁) :
    makeAPICall st₀ url opts (some d) t₁
      = (Except.ok d, ⟨setCache st₀.cache (cacheKey url opts) (d, t₁), st₀.cacheTimeout⟩, true) ∧
    makeAPICall (⟨setCache st₀.cache (cacheKey url opts) (d, t₁), st₀.cacheTimeout⟩ : APIState α)
        url opts net₂ t₂
      = (Except.ok d, ⟨setCache st₀.cache (cacheKey url opts) (d, t₁), st₀.cacheTimeout⟩, false) ∧
    makeAPICall (⟨setCache st₀.cache (cacheKey url opts) (d, t₁), st₀.cacheTimeout⟩ : APIState α)
        url opts (some d') t₃
      = (Except.ok d',
         ⟨setCache (setCache st₀.cache (cacheKey url opts) (d, t₁)) (cacheKey url opts) (d', t₃),
          st₀.cacheTimeout⟩, true) ∧
    cacheLookupLive
        (⟨setCache (setCache st₀.cache (cacheKey url opts) (d, t₁)) (cacheKey url opts) (d', t₃),
          st₀.cacheTimeout⟩ : APIState α) (cacheKey url opts) t₃ = some d' ∧
    makeAPICall st₀ url opts none t₁ = (Except.error (), st₀, true) := by
  have htpos : 0 < st₀.cacheTimeout := Nat.lt_of_le_of_lt (Nat.zero_le _) hfresh
  refine ⟨?_, ?_, ?_, ?_, ?_⟩
  · simp [makeAPICall, hmiss]
  · simp [makeAPICall, cacheLookupLive, lookupCache_setCache_self, hfresh]
  · have hnot : ¬ (t₃ - t₁ < st₀.cacheTimeout) := Nat.not_lt.mpr hstale
    simp [makeAPICall, cacheLookupLive, lookupCache_setCache_self, hnot]
  · simp [cacheLookupLive, lookupCache_setCache_self, htpos]
  · simp [makeAPICall, hmiss]

theorem makeAPICall_cache_policy_witness :
    makeAPICall ((makeAPICall (freshState Nat) "u" (JSVal.obj []) (some 1) 0).2.1)
        "u" (JSVal.obj []) none 1
      = (Except.ok 1, (makeAPICall (freshState Nat) "u" (JSVal.obj []) (some 1) 0).2.1, false) := by
  have h := makeAPICall_cache_policy (freshState Nat) "u" (JSVal.obj []) 1 2 none 0 1 600000
    rfl (by decide) (by decide)
  rw [h.1]
  exact h.2.1

/-! ## Claim C4: cache keys across distinct request signatures -/

/-- **C4 counterexample.**  The key is the plain concatenation
`url + JSON.stringify(options)`, and `JSON.stringify` drops
`undefined`-valued properties, so the distinct options objects
`{a: undefined}` and `{}` produce the same key: a payload cached by a call
with the first options value is returned — without any network call — to a
later call with the second, different, options value. -/
theorem cacheKey_collision :
    JSVal.obj [("a", JSVal.undef)] ≠ JSVal.obj [] ∧
    cacheKey "u" (JSVal.obj [("a", JSVal.undef)]) = cacheKey "u" (JSVal.obj []) ∧
    (makeAPICall ((makeAPICall (freshState Nat) "u" (JSVal.obj [("a", JSVal.undef)])
        (some 42) 0).2.1) "u" (JSVal.obj []) none 60000).1 = Except.ok 42 :=
  ⟨fun h => List.noConfusion (JSVal.obj.inj h), rfl, rfl⟩

/-- **C4 (amended).**  Cache keys separate request signatures exactly up to
the concatenation `url + JSON.stringify(options)`: whenever the URLs agree
and the serializations differ, or the serializations agree and the URLs
differ, the computed keys differ, and a payload stored under one key is
never returned by a lookup under the other. -/
theorem cacheKey_separates (u₁ u₂ : String) (o₁ o₂ : JSVal)
    (h : (u₁ = u₂ ∧ jsonStringify o₁ ≠ jsonStringify o₂)
       ∨ (jsonStringify o₁ = jsonStringify o₂ ∧ u₁ ≠ u₂)) :
    cacheKey u₁ o₁ ≠ cacheKey u₂ o₂ ∧
    ∀ {α : Type} (c : List (String × α × Nat)) (v : α × Nat),
      lookupCache (setCache c (cacheKey u₁ o₁) v) (cacheKey u₂ o₂)
        = lookupCache c (cacheKey u₂ o₂) := by
  have hne : cacheKey u₁ o₁ ≠ cacheKey u₂ o₂ := by
    intro heq
    have hd : (cacheKey u₁ o₁).data = (cacheKey u₂ o₂).data := congrArg String.data heq
    simp only [cacheKey, String.data_append] at hd
    rcases h with ⟨hu, hs⟩ | ⟨hs, hu⟩
    · subst hu
      have : (jsonStringify o₁).data = (jsonStringify o₂).data :=
        List.append_cancel_left hd
      exact hs (by cases hso₁ : jsonStringify o₁; cases hso₂ : jsonStringify o₂; simp_all)
    · rw [hs] at hd
      have : u₁.data = u₂.data := List.append_cancel_right hd
      exact hu (by cases u₁; cases u₂; simp_all)
  exact ⟨hne, fun c v => lookupCache_setCache_ne c _ _ v hne⟩

theorem cacheKey_separates_witness :
    cacheKey "a" (JSVal.obj []) ≠ cacheKey "b" (JSVal.obj []) :=
  (cacheKey_separates "a" "b" (JSVal.obj []) (JSVal.obj [])
    (Or.inr ⟨rfl, by decide⟩)).1

/-! ## API configuration and the three source searches
(api-config.js lines 4-54 and 104-240) -/

/-- The `process.env` secrets read by `API_CONFIG` at startup; each is
`none` when the environment variable is unset (their absence degrades the
corresponding source to fallback mode, it never fails startup). -/
structure Env where
  volunteerMatchKey : Option String
  justServeKey : Option String
  unitedWayKey : Option String
  googleMapsKey : Option String
deriving DecidableEq

def API_CONFIG_volunteerMatch_baseUrl : String := "https://api.volunteermatch.org/search"

def API_CONFIG_justServe_baseUrl : String := "https://www.justserve.org/api"

def API_CONFIG_unitedWay_baseUrl : String := "https://api.unitedway.org"

def API_CONFIG_geocoding_nominatim : String := "https://nominatim.openstreetmap.org/search"

/-- Template-literal coercion `` `Bearer ${key}` ``: an unset key renders as
the string `"undefined"`. -/
def envTemplate (k : Option String) : String := k.getD "undefined"

/-- A key used as a plain object property value: unset means the JavaScript
value `undefined` (dropped by `JSON.stringify`). -/
def envVal : Option String → JSVal
  | some s => JSVal.str s
  | none => JSVal.undef

/-- The search filters fields this helper reads (`SearchFilters` of the
spec): `distance` and `category`; an absent field is `none`.  The field
order `distance`, `category` is the property-insertion order assumed for
the `...filters` spread. -/
structure Filters where
  distance : Option Nat := none
  category : Option String := none
deriving DecidableEq

/-- JavaScript `x || default` for an optional string (empty string is
falsy). -/
def jsOrStr (o : Option String) (d : String) : String :=
  match o with
  | some s => if s = "" then d else s
  | none => d

/-- JavaScript `x || default` for an optional number (0 is falsy). -/
def jsOrNat (o : Option Nat) (d : Nat) : Nat :=
  match o with
  | some n => if n = 0 then d else n
  | none => d

/-- `URLSearchParams` serialization of an ordered parameter list.  The
builtin also percent-encodes values; no claim depends on the URL text, which
only ever feeds the opaque cache key, so the encoding is not modelled. -/
def urlSearchParams (ps : List (String × String)) : String :=
  String.intercalate "&" (ps.map (fun p => p.1 ++ "=" ++ p.2))

/-- `extractZipCode`: first match of `/\b\d{5}\b/` in the location text,
default `"22201"`.  A word boundary separates a word character
(`[A-Za-z0-9_]`) from a non-word character or the text edge. -/
def isWordChar (c : Char) : Bool := c.isAlphanum || c = '_'

/-- Scan for the first five-digit run delimited by word boundaries;
`prev` is the character preceding the current position, if any. -/
def findZip : Option Char → List Char → Option String
  | prev, c₁ :: c₂ :: c₃ :: c₄ :: c₅ :: rest =>
    if c₁.isDigit && c₂.isDigit && c₃.isDigit && c₄.isDigit && c₅.isDigit
        && (match prev with | some p => !isWordChar p | none => true)
        && (match rest with | r :: _ => !isWordChar r | [] => true) then
      some (String.mk [c₁, c₂, c₃, c₄, c₅])
    else findZip (some c₁) (c₂ :: c₃ :: c₄ :: c₅ :: rest)
  | _, _ => none

def extractZipCode (location : String) : String :=
  match findZip none location.data with
  | some zip => zip
  | none => "22201"

/-- The value space of `mapCategoryToJustServe`: a numeric catalog id, the
empty string `""`, or a (truthy) member inherited from `Object.prototype` by
property lookup on the `mapping` object literal. -/
inductive CategoryId where
  | num (n : Nat)
  | empty
  | inherited (name : String)
deriving DecidableEq

/-- The `mapping` object literal of `mapCategoryToJustServe` (its own
properties). -/
def categoryMapping : List (String × Nat) :=
  [("education", 1), ("environment", 2), ("health", 3), ("community", 4),
   ("seniors", 5), ("animals", 6), ("disaster", 7), ("homeless", 8),
   ("youth", 9), ("arts", 10)]

/-- The property names an object literal inherits from `Object.prototype`
(ECMA-262): methods plus the `__proto__` accessor.  Each of these looks up
to a function or object — a truthy value. -/
def objectPrototypeProps : List String :=
  ["constructor", "hasOwnProperty", "isPrototypeOf", "propertyIsEnumerable",
   "toLocaleString", "toString", "valueOf", "__proto__",
   "__defineGetter__", "__defineSetter__", "__lookupGetter__", "__lookupSetter__"]

/-- `mapCategoryToJustServe`: `mapping[category] || ""`.  The argument is
`filters.category`, which may be `undefined` (`none`; the key then coerces
to the string `"undefined"`, which is not a property, giving `""`).
Property lookup checks the object's own properties first, then the
prototype chain: for an `Object.prototype` member name the lookup yields
the inherited function/object, which is truthy, so `||` returns it rather
than `""`.  Every catalog id is a truthy number, so `||` yields the id
exactly when the own-property lookup succeeds. -/
def mapCategoryToJustServe (category : Option String) : CategoryId :=
  match category with
  | none => CategoryId.empty
  | some c =>
    match categoryMapping.lookup c with
    | some n => CategoryId.num n
    | none =>
      if c ∈ objectPrototypeProps then CategoryId.inherited c else CategoryId.empty

/-- `URLSearchParams` string coercion of the category id value.  An
inherited `Object.prototype` member coerces to an engine-formatted source
string; it only ever feeds the opaque cache key, so its exact text is
abstracted. -/
def categoryIdString : CategoryId → String
  | CategoryId.num n => toString n
  | CategoryId.empty => ""
  | CategoryId.inherited name => "[Object.prototype." ++ name ++ "]"

/-- The single hardcoded record of `getFallbackData`: `category` echoes
`filters.category || "environment"` and `location` echoes the input
location; every other field is a fixed literal. -/
def fallbackOpportunity (location : String) (filters : Filters) : Opportunity :=
  { id := some "fallback-1",
    title := "Community Cleanup Event",
    organization := "Local Environmental Group",
    category := some (jsOrStr filters.category "environment"),
    description := some "Help clean up local parks and waterways.",
    date := some "This Weekend",
    time := some "9:00 AM - 1:00 PM",
    location := some location,
    skills := some "None required",
    contact := some "info@localenv.org" }

/-- `VolunteerAPI.getFallbackData`. -/
def getFallbackData (location : String) (filters : Filters) : APIResult :=
  ⟨some [fallbackOpportunity location filters]⟩

/-- Query parameters of `searchVolunteerMatch`: the object literal
`{location, radius: distance||25, category: category||"", resultsPerPage: 20,
...filters}` — the spread overrides the `category` slot in place with
`filters.category` (same final value) and appends a `distance` key when
present. -/
def vmParams (location : String) (f : Filters) : List (String × String) :=
  [("location", location),
   ("radius", toString (jsOrNat f.distance 25)),
   ("category", jsOrStr f.category ""),
   ("resultsPerPage", "20")]
  ++ (match f.distance with | some d => [("distance", toString d)] | none => [])

def vmURL (location : String) (f : Filters) : String :=
  API_CONFIG_volunteerMatch_baseUrl ++ "?" ++ urlSearchParams (vmParams location f)

def vmOptions (env : Env) : JSVal :=
  JSVal.obj [("headers", JSVal.obj
    [("Authorization", JSVal.str ("Bearer " ++ envTemplate env.volunteerMatchKey))])]

/-- Query parameters of `searchJustServe`: `{zipCode, miles, categoryId,
...filters}` — the spread appends `distance` and `category` keys when
present. -/
def jsParams (location : String) (f : Filters) : List (String × String) :=
  [("zipCode", extractZipCode location),
   ("miles", toString (jsOrNat f.distance 25)),
   ("categoryId", categoryIdString (mapCategoryToJustServe f.category))]
  ++ (match f.distance with | some d => [("distance", toString d)] | none => [])
  ++ (match f.category with | some c => [("category", c)] | none => [])

def jsURL (location : String) (f : Filters) : String :=
  API_CONFIG_justServe_baseUrl ++ "/opportunities?" ++ urlSearchParams (jsParams location f)

def jsOptions (env : Env) : JSVal :=
  JSVal.obj [("headers", JSVal.obj [("X-API-Key", envVal env.justServeKey)])]

/-- Query parameters of `searchUnitedWay`: `{location, radius, cause,
...filters}`. -/
def uwParams (location : String) (f : Filters) : List (String × String) :=
  [("location", location),
   ("radius", toString (jsOrNat f.distance 25)),
   ("cause", jsOrStr f.category "")]
  ++ (match f.distance with | some d => [("distance", toString d)] | none => [])
  ++ (match f.category with | some c => [("category", c)] | none => [])

def uwURL (location : String) (f : Filters) : String :=
  API_CONFIG_unitedWay_baseUrl ++ "/volunteer-opportunities?" ++
    urlSearchParams (uwParams location f)

def uwOptions (env : Env) : JSVal :=
  JSVal.obj [("headers", JSVal.obj
    [("Authorization", JSVal.str ("Bearer " ++ envTemplate env.unitedWayKey))])]

/-- `VolunteerAPI.searchVolunteerMatch`: a cached GET; any `makeAPICall`
error is caught and converted into the fallback data (the function is
total — it never raises). -/
def searchVolunteerMatch (env : Env) (st : APIState APIResult) (location : String)
    (filters : Filters) (net : Option APIResult) (now : Nat) :
    APIResult × APIState APIResult :=
  match makeAPICall st (vmURL location filters) (vmOptions env) net now with
  | (Except.ok data, st', _) => (data, st')
  | (Except.error _, st', _) => (getFallbackData location filters, st')

/-- `VolunteerAPI.searchJustServe`. -/
def searchJustServe (env : Env) (st : APIState APIResult) (location : String)
    (filters : Filters) (net : Option APIResult) (now : Nat) :
    APIResult × APIState APIResult :=
  match makeAPICall st (jsURL location filters) (jsOptions env) net now with
  | (Except.ok data, st', _) => (data, st')
  | (Except.error _, st', _) => (getFallbackData location filters, st')

/-- `VolunteerAPI.searchUnitedWay`. -/
def searchUnitedWay (env : Env) (st : APIState APIResult) (location : String)
    (filters : Filters) (net : Option APIResult) (now : Nat) :
    APIResult × APIState APIResult :=
  match makeAPICall st (uwURL location filters) (uwOptions env) net now with
  | (Except.ok data, st', _) => (data, st')
  | (Except.error _, st', _) => (getFallbackData location filters, st')

/-- `VolunteerAPI.searchAllSources`: `Promise.allSettled` over the three
searches.  Each search is total, so every promise fulfills and the
`fulfilled` filter keeps all three results, which go to `combineResults`;
the defensive outer `catch` is unreachable.  The shared cache is threaded
left to right (the JavaScript event loop interleaves the three calls, but
no claim depends on the interleaving; with failing sources the state is
untouched). -/
def searchAllSources (env : Env) (st : APIState APIResult) (location : String)
    (filters : Filters) (net₁ net₂ net₃ : Option APIResult) (now : Nat) :
    APIResult × APIState APIResult :=
  match searchVolunteerMatch env st location filters net₁ now with
  | (r₁, st₁) =>
    match searchJustServe env st₁ location filters net₂ now with
    | (r₂, st₂) =>
      match searchUnitedWay env st₂ location filters net₃ now with
      | (r₃, st₃) => (combineResults [r₁, r₂, r₃], st₃)

theorem combineResults_fallback_triple (location : String) (f : Filters) :
    combineResults [getFallbackData location f, getFallbackData location f,
      getFallbackData location f] = getFallbackData location f := rfl

/-! ## Claim C3: `searchAllSources` under total source failure -/

/-- **C3.** When all three underlying source calls fail (`net = none` and no
live cache entry serves any of the three request keys), `searchAllSources`
still returns normally — it is a total function, no exception crosses its
boundary — and its result is exactly the fallback opportunity set
`getFallbackData location filters` (the three identical per-source fallback
records deduplicate to the single fallback record), with the cache
untouched. -/
theorem searchAllSources_all_fail (env : Env) (st : APIState APIResult)
    (location : String) (f : Filters) (now : Nat)
    (h₁ : cacheLookupLive st (cacheKey (vmURL location f) (vmOptions env)) now = none)
    (h₂ : cacheLookupLive st (cacheKey (jsURL location f) (jsOptions env)) now = none)
    (h₃ : cacheLookupLive st (cacheKey (uwURL location f) (uwOptions env)) now = none) :
    searchAllSources env st location f none none none now
      = (getFallbackData location f, st) := by
  have e₁ : searchVolunteerMatch env st location f none now
      = (getFallbackData location f, st) := by
    simp [searchVolunteerMatch, makeAPICall, h₁]
  have e₂ : searchJustServe env st location f none now
      = (getFallbackData location f, st) := by
    simp [searchJustServe, makeAPICall, h₂]
  have e₃ : searchUnitedWay env st location f none now
      = (getFallbackData location f, st) := by
    simp [searchUnitedWay, makeAPICall, h₃]
  simp only [searchAllSources, e₁, e₂, e₃, combineResults_fallback_triple]

def demoEnv : Env := ⟨none, none, none, none⟩

theorem searchAllSources_all_fail_witness :
    searchAllSources demoEnv (freshState APIResult) "Arlington, VA" ⟨none, none⟩
        none none none 0
      = (getFallbackData "Arlington, VA" ⟨none, none⟩, freshState APIResult) :=
  searchAllSources_all_fail demoEnv (freshState APIResult) "Arlington, VA"
    ⟨none, none⟩ 0 rfl rfl rfl

/-! ## Claim C6: per-source failure fallback -/

/-- **C6 counterexample.** The fallback record is not fixed regardless of
input: a failing `searchVolunteerMatch` at two different locations returns
two different records (their `location` fields echo the input). -/
theorem searchSource_fallback_varies :
    (searchVolunteerMatch demoEnv (freshState APIResult) "Arlington, VA"
        ⟨none, none⟩ none 0).1
      ≠ (searchVolunteerMatch demoEnv (freshState APIResult) "Boston, MA"
        ⟨none, none⟩ none 0).1 := by
  decide

/-- **C6 (amended).** For every location and filters, each of the three
per-source searches whose underlying call fails (network failure with no
live cache entry for its key) returns the single fallback record rather
than an error; the record's `id`, `title`, `organization`, `description`,
`date`, `time`, `skills` and `contact` fields are fixed literals, while its
`category` echoes `filters.category || "environment"` and its `location`
echoes the input location. -/
theorem searchSource_failure_fallback (env : Env) (st : APIState APIResult)
    (location : String) (f : Filters) (now : Nat)
    (h₁ : cacheLookupLive st (cacheKey (vmURL location f) (vmOptions env)) now = none)
    (h₂ : cacheLookupLive st (cacheKey (jsURL location f) (jsOptions env)) now = none)
    (h₃ : cacheLookupLive st (cacheKey (uwURL location f) (uwOptions env)) now = none) :
    searchVolunteerMatch env st location f none now = (getFallbackData location f, st) ∧
    searchJustServe env st location f none now = (getFallbackData location f, st) ∧
    searchUnitedWay env st location f none now = (getFallbackData location f, st) ∧
    (getFallbackData location f).opportunities = some [fallbackOpportunity location f] ∧
    (fallbackOpportunity location f).id = some "fallback-1" ∧
    (fallbackOpportunity location f).title = "Community Cleanup Event" ∧
    (fallbackOpportunity location f).organization = "Local Environmental Group" ∧
    (fallbackOpportunity location f).location = some location ∧
    (fallbackOpportunity location f).category = some (jsOrStr f.category "environment") := by
  refine ⟨?_, ?_, ?_, rfl, rfl, rfl, rfl, rfl, rfl⟩
  · simp [searchVolunteerMatch, makeAPICall, h₁]
  · simp [searchJustServe, makeAPICall, h₂]
  · simp [searchUnitedWay, makeAPICall, h₃]

theorem searchSource_failure_fallback_witness :
    searchJustServe demoEnv (freshState APIResult) "22201" ⟨none, none⟩ none 0
      = (getFallbackData "22201" ⟨none, none⟩, freshState APIResult) :=
  (searchSource_failure_fallback demoEnv (freshState APIResult) "22201"
    ⟨none, none⟩ 0 rfl rfl rfl).2.1

/-! ## Claim C8: the JustServe category mapping -/

/-- **C8 counterexample.** `"toString"` is not one of the ten recognized
labels, yet `mapCategoryToJustServe` does not return `""` for it:
`mapping["toString"]` finds the truthy `toString` method inherited from
`Object.prototype`, which `||` passes through. -/
theorem mapCategoryToJustServe_prototype_leak :
    "toString" ∉ ["education", "environment", "health", "community", "seniors",
      "animals", "disaster", "homeless", "youth", "arts"] ∧
    mapCategoryToJustServe (some "toString") ≠ CategoryId.empty ∧
    mapCategoryToJustServe (some "toString") = CategoryId.inherited "toString" :=
  ⟨by decide, by decide, rfl⟩

/-- **C8 (amended).** `mapCategoryToJustServe` maps each of the ten
recognized labels to its numeric catalog id, every category string that is
neither a recognized label nor the name of an `Object.prototype` member to
the empty value `""`, and each `Object.prototype` member name to the truthy
value inherited through the prototype chain. -/
theorem mapCategoryToJustServe_spec :
    (∀ c : String,
      c ∉ ["education", "environment", "health", "community", "seniors",
           "animals", "disaster", "homeless", "youth", "arts"] →
      c ∉ objectPrototypeProps →
      mapCategoryToJustServe (some c) = CategoryId.empty) ∧
    (∀ c ∈ objectPrototypeProps,
      mapCategoryToJustServe (some c) = CategoryId.inherited c) ∧
    mapCategoryToJustServe (some "education") = CategoryId.num 1 ∧
    mapCategoryToJustServe (some "environment") = CategoryId.num 2 ∧
    mapCategoryToJustServe (some "health") = CategoryId.num 3 ∧
    mapCategoryToJustServe (some "community") = CategoryId.num 4 ∧
    mapCategoryToJustServe (some "seniors") = CategoryId.num 5 ∧
    mapCategoryToJustServe (some "animals") = CategoryId.num 6 ∧
    mapCategoryToJustServe (some "disaster") = CategoryId.num 7 ∧
    mapCategoryToJustServe (some "homeless") = CategoryId.num 8 ∧
    mapCategoryToJustServe (some "youth") = CategoryId.num 9 ∧
    mapCategoryToJustServe (some "arts") = CategoryId.num 10 := by
  refine ⟨?_, by decide, rfl, rfl, rfl, rfl, rfl, rfl, rfl, rfl, rfl, rfl⟩
  intro c hc hp
  simp only [List.mem_cons, List.not_mem_nil, or_false, not_or] at hc
  obtain ⟨h₁, h₂, h₃, h₄, h₅, h₆, h₇, h₈, h₉, h₁₀⟩ := hc
  have b₁ : (c == "education") = false := beq_eq_false_iff_ne.mpr h₁
  have b₂ : (c == "environment") = false := beq_eq_false_iff_ne.mpr h₂
  have b₃ : (c == "health") = false := beq_eq_false_iff_ne.mpr h₃
  have b₄ : (c == "community") = false := beq_eq_false_iff_ne.mpr h₄
  have b₅ : (c == "seniors") = false := beq_eq_false_iff_ne.mpr h₅
  have b₆ : (c == "animals") = false := beq_eq_false_iff_ne.mpr h₆
  have b₇ : (c == "disaster") = false := beq_eq_false_iff_ne.mpr h₇
  have b₈ : (c == "homeless") = false := beq_eq_false_iff_ne.mpr h₈
  have b₉ : (c == "youth") = false := beq_eq_false_iff_ne.mpr h₉
  have b₁₀ : (c == "arts") = false := beq_eq_false_iff_ne.mpr h₁₀
  simp [mapCategoryToJustServe, categoryMapping, List.lookup,
    b₁, b₂, b₃, b₄, b₅, b₆, b₇, b₈, b₉, b₁₀, hp]

theorem mapCategoryToJustServe_spec_witness :
    mapCategoryToJustServe (some "sports") = CategoryId.empty :=
  mapCategoryToJustServe_spec.1 "sports" (by decide) (by decide)

/-! ## Geocoding (api-config.js lines 174-197)

The geocoding provider's response is an array of match objects
(spec section 6); it is modelled as `List JSVal`, each element an arbitrary
JSON value.  `geocodeLocation` reads `result[0].lat` / `result[0].lon`
through JavaScript property access — which throws (inside the `try`) when
the element is `null` or `undefined` — and parses them with `parseFloat`,
which first coerces its argument to a string. -/

/-- JavaScript property access `v[k]`, for the property names used here
(`lat`, `lon`): `undefined` on primitives and arrays, the field value (or
`undefined`) on objects, and a thrown `TypeError` (`Except.error`) on
`null`/`undefined`.  Parsed-JSON objects are duplicate-key free, so
first-field lookup is exact. -/
def objField (fs : List (String × JSVal)) (k : String) : JSVal :=
  (((fs.find? (fun p => p.1 == k)).map Prod.snd).getD JSVal.undef)

def getField : JSVal → String → Except Unit JSVal
  | JSVal.null, _ => Except.error ()
  | JSVal.undef, _ => Except.error ()
  | JSVal.obj fs, k => Except.ok (objField fs k)
  | _, _ => Except.ok JSVal.undef

/-! JavaScript string coercion `String(v)` (used by `parseFloat`):
`undefined`/`null` render as their names, arrays join their elements with
commas (`null`/`undefined` elements as empty), objects render as
`"[object Object]"`. -/

mutual

def jsToString : JSVal → String
  | JSVal.undef => "undefined"
  | JSVal.null => "null"
  | JSVal.bool true => "true"
  | JSVal.bool false => "false"
  | JSVal.num n => toString n
  | JSVal.str s => s
  | JSVal.arr xs => jsArrToString xs
  | JSVal.obj _ => "[object Object]"

def jsArrToString : List JSVal → String
  | [] => ""
  | [v] => jsArrElemToString v
  | v :: rest => jsArrElemToString v ++ "," ++ jsArrToString rest

def jsArrElemToString : JSVal → String
  | JSVal.undef => ""
  | JSVal.null => ""
  | JSVal.bool true => "true"
  | JSVal.bool false => "false"
  | JSVal.num n => toString n
  | JSVal.str s => s
  | JSVal.arr xs => jsArrToString xs
  | JSVal.obj _ => "[object Object]"

end

/-- The value space of JavaScript `parseFloat`: `NaN`, signed infinity, or
a finite value (modelled as an exact rational — no claim depends on IEEE
rounding). -/
inductive JSNumber where
  | nan
  | inf (neg : Bool)
  | finite (q : ℚ)
deriving DecidableEq

def isJSWhitespace (c : Char) : Bool :=
  c = ' ' || c = '\t' || c = '\n' || c = '\r' || c = '\x0b' || c = '\x0c'

def parseSign : List Char → Bool × List Char
  | '-' :: t => (true, t)
  | '+' :: t => (false, t)
  | cs => (false, cs)

def digitsToNat (ds : List Char) : Nat :=
  ds.foldl (fun n c => 10 * n + (c.toNat - '0'.toNat)) 0

/-- Exponent suffix of a decimal literal: `e`/`E`, optional sign, digits;
a malformed exponent contributes nothing (parseFloat keeps the longest
valid prefix). -/
def parseExponent : List Char → Int
  | c :: t =>
    if c = 'e' || c = 'E' then
      match parseSign t with
      | (eneg, t₂) =>
        match t₂.takeWhile Char.isDigit with
        | [] => 0
        | ds => if eneg then -(digitsToNat ds : Int) else (digitsToNat ds : Int)
    else 0
  | [] => 0

/-- JavaScript `parseFloat`: skip whitespace, optional sign, `Infinity` or
the longest decimal-literal prefix; `NaN` when no digit is found. -/
def parseFloatJS (s : String) : JSNumber :=
  let ws := s.data.dropWhile isJSWhitespace
  match parseSign ws with
  | (neg, cs) =>
    if cs.take 8 = "Infinity".data then JSNumber.inf neg
    else
      let ip := cs.takeWhile Char.isDigit
      let cs₁ := cs.dropWhile Char.isDigit
      let fp := match cs₁ with | '.' :: t => t.takeWhile Char.isDigit | _ => []
      let cs₂ := match cs₁ with | '.' :: t => t.dropWhile Char.isDigit | _ => cs₁
      if ip.isEmpty && fp.isEmpty then JSNumber.nan
      else
        let mant : ℚ := (digitsToNat ip : ℚ) + (digitsToNat fp : ℚ) / ((10 : ℚ) ^ fp.length)
        let ex : Int := parseExponent cs₂
        let mag : ℚ :=
          if 0 ≤ ex then mant * (10 : ℚ) ^ ex.toNat else mant / (10 : ℚ) ^ (-ex).toNat
        JSNumber.finite (if neg then -mag else mag)

/-- The `{lat, lng}` object produced by `geocodeLocation`. -/
structure GeoPoint where
  lat : JSNumber
  lng : JSNumber
deriving DecidableEq

def geocodeURL (address : String) : String :=
  API_CONFIG_geocoding_nominatim ++ "?" ++
    urlSearchParams [("q", address), ("format", "json"), ("limit", "1")]

/-- `VolunteerAPI.geocodeLocation`: cached GET with defaulted options
(`{}`); on a non-empty array result the first element's `lat`/`lon` are
read and `parseFloat`ed (a throwing property access is caught by the
surrounding `try`); every failure path returns `null` (`none`) — the
function is total, it never raises. -/
def geocodeLocation (st : APIState (List JSVal)) (address : String)
    (net : Option (List JSVal)) (now : Nat) :
    Option GeoPoint × APIState (List JSVal) :=
  match makeAPICall st (geocodeURL address) (JSVal.obj []) net now with
  | (Except.ok result, st', _) =>
    match result with
    | [] => (none, st')
    | e :: _ =>
      match getField e "lat", getField e "lon" with
      | Except.ok lv, Except.ok lov =>
        (some ⟨parseFloatJS (jsToString lv), parseFloatJS (jsToString lov)⟩, st')
      | _, _ => (none, st')
  | (Except.error _, st', _) => (none, st')

/-! ## Claim C5: `geocodeLocation` error handling -/

/-- **C5.** For every address (with no live cache entry for its request
key): a failing call — transport error, non-2xx status, or JSON parse
error — yields the "no location" signal `none`, an empty provider result
`[]` also yields `none`, and a successful call whose first result is a
match object yields its `lat`/`lon` fields coerced to strings and parsed as
floating point.  `geocodeLocation` is a total function: no exception
reaches the caller. -/
theorem geocodeLocation_error_handling (st : APIState (List JSVal))
    (address : String) (now : Nat)
    (hmiss : cacheLookupLive st (cacheKey (geocodeURL address) (JSVal.obj [])) now = none) :
    (geocodeLocation st address none now).1 = none ∧
    (geocodeLocation st address (some []) now).1 = none ∧
    ∀ (fs : List (String × JSVal)) (rest : List JSVal),
      (geocodeLocation st address (some (JSVal.obj fs :: rest)) now).1
        = some ⟨parseFloatJS (jsToString (objField fs "lat")),
                parseFloatJS (jsToString (objField fs "lon"))⟩ := by
  refine ⟨?_, ?_, ?_⟩
  · simp [geocodeLocation, makeAPICall, hmiss]
  · simp [geocodeLocation, makeAPICall, hmiss]
  · intro fs rest
    simp [geocodeLocation, makeAPICall, hmiss, getField]

theorem geocodeLocation_error_handling_witness :
    (geocodeLocation (freshState (List JSVal)) "Arlington, VA" none 0).1 = none ∧
    (geocodeLocation (freshState (List JSVal)) "Arlington, VA" (some []) 0).1 = none :=
  ⟨(geocodeLocation_error_handling (freshState (List JSVal)) "Arlington, VA" 0 rfl).1,
   (geocodeLocation_error_handling (freshState (List JSVal)) "Arlington, VA" 0 rfl).2.1⟩

/-! ## Claim C10: non-empty provider results -/

/-- **C10 counterexample.** A non-empty provider array whose first element
is `null` does not produce a GeoPoint: reading `result[0].lat` throws a
`TypeError`, the surrounding `catch` swallows it, and the absent signal
`null` is returned — so the absent signal can arise from a coordinate-field
access failure, not only from transport/HTTP/parse failure or an empty
result. -/
theorem geocodeLocation_null_element :
    (geocodeLocation (freshState (List JSVal)) "a" (some [JSVal.null]) 0).1 = none ∧
    ([JSVal.null] : List JSVal) ≠ [] :=
  ⟨rfl, fun h => List.noConfusion h⟩

/-- **C10 (amended).** For every non-empty array returned by the geocoding
provider whose first element is neither `null` nor `undefined`,
`geocodeLocation` returns a GeoPoint object — even when the element lacks
`lat`/`lon` fields or they are non-numeric (the components are then `NaN`
via `parseFloat` of the coerced field value); the absent signal is produced
on transport/HTTP/JSON-parse failure, an empty result, or a first element
whose property access throws (`null`/`undefined`). -/
theorem geocodeLocation_nonempty_geopoint (st : APIState (List JSVal))
    (address : String) (now : Nat) (e : JSVal) (rest : List JSVal)
    (hmiss : cacheLookupLive st (cacheKey (geocodeURL address) (JSVal.obj [])) now = none)
    (hnull : e ≠ JSVal.null) (hundef : e ≠ JSVal.undef) :
    ∃ lv lov : JSVal,
      getField e "lat" = Except.ok lv ∧
      getField e "lon" = Except.ok lov ∧
      (geocodeLocation st address (some (e :: rest)) now).1
        = some ⟨parseFloatJS (jsToString lv), parseFloatJS (jsToString lov)⟩ := by
  have hfield : ∀ k : String, ∃ v, getField e k = Except.ok v := by
    intro k
    cases e with
    | undef => exact absurd rfl hundef
    | null => exact absurd rfl hnull
    | bool b => exact ⟨JSVal.undef, rfl⟩
    | num n => exact ⟨JSVal.undef, rfl⟩
    | str s => exact ⟨JSVal.undef, rfl⟩
    | arr xs => exact ⟨JSVal.undef, rfl⟩
    | obj fs => exact ⟨objField fs k, rfl⟩
  obtain ⟨lv, hlv⟩ := hfield "lat"
  obtain ⟨lov, hlov⟩ := hfield "lon"
  refine ⟨lv, lov, hlv, hlov, ?_⟩
  simp [geocodeLocation, makeAPICall, hmiss, hlv, hlov]

theorem geocodeLocation_nonempty_geopoint_witness :
    ∃ p : GeoPoint,
      (geocodeLocation (freshState (List JSVal)) "A" (some [JSVal.obj []]) 0).1 = some p := by
  obtain ⟨lv, lov, _, _, h⟩ :=
    geocodeLocation_nonempty_geopoint (freshState (List JSVal)) "A" 0 (JSVal.obj []) []
      rfl (fun h => JSVal.noConfusion h) (fun h => JSVal.noConfusion h)
  exact ⟨_, h⟩

/-! ## `VolunteerScraper` (api-config.js lines 285-341)

`scrapeSite` fetches a page through the CORS proxy, parses the HTML and
selects the container elements.  The whole fetch/parse/select pipeline is
the oracle `net`: `some els` models a successful fetch whose parsed
document yields the container elements `els`; `none` models any fetch or
parse error (all caught by the single `try`).  A `ScrapedElement` records,
per sub-selector, the raw `textContent` of its first match and the `href`
of its first link match (absent entry = no match / no attribute).
`Date.now()` is the single `now` argument (the loop is synchronous). -/

structure ScrapedElement where
  texts : List (String × String)
  links : List (String × String)
deriving DecidableEq

/-- `String.prototype.trim`: strip whitespace from both ends. -/
def jsTrim (s : String) : String :=
  String.mk (((s.data.dropWhile Char.isWhitespace).reverse.dropWhile
    Char.isWhitespace).reverse)

/-- `VolunteerScraper.extractText`: empty for a falsy selector or a missing
match, otherwise the trimmed text content. -/
def extractText (el : ScrapedElement) (selOpt : Option String) : String :=
  match selOpt with
  | none => ""
  | some sel =>
    if sel = "" then ""
    else
      match el.texts.lookup sel with
      | some raw => jsTrim raw
      | none => ""

/-- Abstract model of WHATWG-URL resolution `new URL(href, base).href` — a
platform builtin; no claim depends on its output, only on where
`extractLink` uses it. -/
def resolveURL (href base : String) : String := base ++ href

/-- `VolunteerScraper.extractLink`: empty for a falsy selector, a missing
match or a missing/empty `href`; an absolute (`http…`) `href` is returned
as-is, a relative one resolved against the page URL. -/
def extractLink (el : ScrapedElement) (selOpt : Option String) (baseUrl : String) : String :=
  match selOpt with
  | none => ""
  | some sel =>
    if sel = "" then ""
    else
      match el.links.lookup sel with
      | none => ""
      | some href =>
        if href = "" then ""
        else if href.startsWith "http" then href else resolveURL href baseUrl

/-- The sub-selectors configured for one site: a repeating container plus
per-field selectors (any may be absent). -/
structure Selectors where
  container : Option String := none
  title : Option String := none
  organization : Option String := none
  description : Option String := none
  date : Option String := none
  location : Option String := none
  link : Option String := none
deriving DecidableEq

/-- The record `scrapeSite` builds for the `index`-th container element:
a synthetic id `scraped-<Date.now()>-<index>` plus the extracted fields. -/
def scrapeSiteRecord (url : String) (sel : Selectors) (now index : Nat)
    (el : ScrapedElement) : Opportunity :=
  { id := some ("scraped-" ++ toString now ++ "-" ++ toString index),
    title := extractText el sel.title,
    organization := extractText el sel.organization,
    description := some (extractText el sel.description),
    date := some (extractText el sel.date),
    location := some (extractText el sel.location),
    link := some (extractLink el sel.link url) }

/-- `VolunteerScraper.scrapeSite`: build a record per container element in
document order and keep those with a truthy (non-empty) title; any fetch or
parse error yields `[]` — the function is total, it never raises. -/
def scrapeSite (url : String) (sel : Selectors) (net : Option (List ScrapedElement))
    (now : Nat) : List Opportunity :=
  match net with
  | none => []
  | some els =>
    els.enum.filterMap (fun p =>
      let opp := scrapeSiteRecord url sel now p.1 p.2
      if opp.title ≠ "" then some opp else none)

/-! ## Claim C9: `scrapeSite` filtering and error handling -/

/-- **C9.** Any fetch or parse error makes `scrapeSite` return the empty
opportunity list (it is total — nothing is raised to the caller); every
record in its output has a non-empty title; and every container element
whose extracted title is non-empty contributes its record (with its
index-based synthetic id) to the output — so exactly the records lacking a
non-empty title are discarded. -/
theorem scrapeSite_spec (url : String) (sel : Selectors) (now : Nat) :
    scrapeSite url sel none now = [] ∧
    (∀ (els : List ScrapedElement), ∀ o ∈ scrapeSite url sel (some els) now,
      o.title ≠ "") ∧
    (∀ (els : List ScrapedElement) (i : Nat) (el : ScrapedElement),
      (i, el) ∈ els.enum → extractText el sel.title ≠ "" →
      scrapeSiteRecord url sel now i el ∈ scrapeSite url sel (some els) now) := by
  refine ⟨rfl, ?_, ?_⟩
  · intro els o ho
    simp only [scrapeSite, List.mem_filterMap] at ho
    obtain ⟨p, _, hp⟩ := ho
    by_cases h : (scrapeSiteRecord url sel now p.1 p.2).title ≠ ""
    · simp only [if_pos h] at hp
      rw [← Option.some.inj hp]
      exact h
    · simp only [if_neg h] at hp
      exact absurd hp (by simp)
  · intro els i el hmem htitle
    simp only [scrapeSite, List.mem_filterMap]
    refine ⟨(i, el), hmem, ?_⟩
    have h : (scrapeSiteRecord url sel now i el).title ≠ "" := htitle
    simp only [if_pos h]

def demoSelectors : Selectors :=
  { container := some ".card", title := some ".t", organization := some ".o" }

def demoElement : ScrapedElement := ⟨[(".t", " Food Drive "), (".o", "Shelter")], []⟩

def demoElementNoTitle : ScrapedElement := ⟨[(".o", "Shelter")], []⟩

theorem scrapeSite_spec_witness :
    scrapeSite "https://example.org" demoSelectors none 7 = [] ∧
    scrapeSiteRecord "https://example.org" demoSelectors 7 0 demoElement
      ∈ scrapeSite "https://example.org" demoSelectors
          (some [demoElement, demoElementNoTitle]) 7 :=
  ⟨(scrapeSite_spec "https://example.org" demoSelectors 7).1,
   (scrapeSite_spec "https://example.org" demoSelectors 7).2.2
     [demoElement, demoElementNoTitle] 0 demoElement (by decide) (by decide)⟩

end ApiConfig
